import Mathlib

/-
Verification of `quick_folium.py`: a library of helper functions that attach
layers (boundaries, labeled polygons, point markers, heatmaps, graduated
circles) to a folium map object.  This file gives a shallow embedding of the
functions and the data they build, and proves the specified properties.

Coordinates are modelled as rationals (ℚ).  The folium / shapely layer
objects are modelled structurally: a builder that "adds a child to the map"
is embedded as a function from the map's current child list to the extended
child list, and styling options become record fields.
-/

namespace QuickFolium

/-- A point geometry: `x` is the longitude and `y` the latitude, following
the shapely convention used throughout `quick_folium.py` (`point.x`,
`point.y`). -/
structure Pt where
  x : ℚ
  y : ℚ
deriving DecidableEq, Repr

/-- A polygon geometry, represented by the list of its vertices.  The
attribute columns of a geodataframe are modelled separately where a claim
needs them. -/
abbrev Polygon := List Pt

/-- All vertices of all geometries of a polygon geodataframe
(`gdf.geometry`). -/
def allVertices (gdf : List Polygon) : List Pt :=
  gdf.flatten

/-- Minimum of a nonempty collection of rationals, written as a fold with
the first element as the accumulator. -/
def minList (a : ℚ) (l : List ℚ) : ℚ :=
  l.foldl min a

/-- Maximum of a nonempty collection of rationals. -/
def maxList (a : ℚ) (l : List ℚ) : ℚ :=
  l.foldl max a

/-- An axis-aligned bounding box, the result of shapely's `envelope`. -/
structure BBox where
  minx : ℚ
  miny : ℚ
  maxx : ℚ
  maxy : ℚ
deriving DecidableEq, Repr

/-- The centroid of an axis-aligned box is its midpoint. -/
def BBox.centroid (b : BBox) : Pt :=
  ⟨(b.minx + b.maxx) / 2, (b.miny + b.maxy) / 2⟩

/-- `gdf.geometry.union_all().envelope` of `map_location`: the geometry
operations `union_all` and `envelope` belong to the external shapely
library; the envelope of the union of finitely many polygons is the
axis-aligned bounding box of all their vertices, which is what this
embedding computes.  An empty collection has no envelope (`none`). -/
def envelope (gdf : List Polygon) : Option BBox :=
  match allVertices gdf with
  | [] => none
  | v :: vs =>
      some { minx := minList v.x (vs.map Pt.x)
             miny := minList v.y (vs.map Pt.y)
             maxx := maxList v.x (vs.map Pt.x)
             maxy := maxList v.y (vs.map Pt.y) }

/-- `map_location` (function 1 of `quick_folium.py`): computes the envelope
of the union of all geometries, takes its centroid, and returns the pair
`[centroid.y, centroid.x]`, i.e. `[latitude, longitude]`.  Returns `none`
exactly when the collection has no vertices (shapely's behaviour there is
undefined upstream). -/
def map_location (gdf : List Polygon) : Option (List ℚ) :=
  (envelope gdf).map fun combined_bbox => [combined_bbox.centroid.y, combined_bbox.centroid.x]

theorem foldl_min_le_foldl_max (l : List ℚ) :
    ∀ a b : ℚ, a ≤ b → l.foldl min a ≤ l.foldl max b := by
  induction l with
  | nil => intro a b h; simpa using h
  | cons x xs ih =>
      intro a b h
      simp only [List.foldl_cons]
      exact ih _ _ (le_trans (le_trans (min_le_left a x) h) (le_max_left b x))

theorem minList_le_maxList (a : ℚ) (l : List ℚ) : minList a l ≤ maxList a l :=
  foldl_min_le_foldl_max l a a le_rfl

theorem envelope_bounds (gdf : List Polygon) (b : BBox) (h : envelope gdf = some b) :
    b.minx ≤ b.maxx ∧ b.miny ≤ b.maxy := by
  unfold envelope at h
  cases hv : allVertices gdf with
  | nil => rw [hv] at h; exact absurd h (by simp)
  | cons v vs =>
      rw [hv] at h
      obtain rfl : _ = b := Option.some.inj h
      exact ⟨minList_le_maxList _ _, minList_le_maxList _ _⟩

/-- C2: for every non-empty polygon collection, `map_location` returns the
two-element `[latitude, longitude]` centroid of the axis-aligned bounding
envelope of the union of the inputs; that centroid lies within (or on the
boundary of) the envelope; and for a single rectangle spanning (0,0)-(2,2)
the result is `[1, 1]`. -/
theorem map_location_envelope_centroid (gdf : List Polygon) (b : BBox)
    (h : envelope gdf = some b) :
    map_location gdf = some [b.centroid.y, b.centroid.x]
    ∧ b.miny ≤ b.centroid.y ∧ b.centroid.y ≤ b.maxy
    ∧ b.minx ≤ b.centroid.x ∧ b.centroid.x ≤ b.maxx
    ∧ map_location [[⟨0, 0⟩, ⟨2, 0⟩, ⟨2, 2⟩, ⟨0, 2⟩]] = some [1, 1] := by
  obtain ⟨hx, hy⟩ := envelope_bounds gdf b h
  refine ⟨by simp [map_location, h], ?_, ?_, ?_, ?_,
    by simp [map_location, envelope, allVertices, minList, maxList, BBox.centroid]⟩
  · simp only [BBox.centroid]; linarith
  · simp only [BBox.centroid]; linarith
  · simp only [BBox.centroid]; linarith
  · simp only [BBox.centroid]; linarith

/-- Witness for C2: the rectangle (0,0)-(2,2) has envelope `⟨0,0,2,2⟩`, and
the theorem applies there, placing the centroid `[1,1]` inside it. -/
theorem map_location_envelope_centroid_witness :
    envelope [[⟨0, 0⟩, ⟨2, 0⟩, ⟨2, 2⟩, ⟨0, 2⟩]] = some ⟨0, 0, 2, 2⟩
    ∧ map_location [[⟨0, 0⟩, ⟨2, 0⟩, ⟨2, 2⟩, ⟨0, 2⟩]]
        = some [(⟨0, 0, 2, 2⟩ : BBox).centroid.y, (⟨0, 0, 2, 2⟩ : BBox).centroid.x] :=
  ⟨by simp [envelope, allVertices, minList, maxList],
    (map_location_envelope_centroid [[⟨0, 0⟩, ⟨2, 0⟩, ⟨2, 2⟩, ⟨0, 2⟩]] ⟨0, 0, 2, 2⟩
      (by simp [envelope, allVertices, minList, maxList])).1⟩

/-- The `folium.Choropleth` built by `map_boundary`: its constructor
arguments as record fields. -/
structure BoundaryChoropleth where
  geo_data : List Polygon
  fill_opacity : ℚ
  line_weight : ℚ
  fill_color : Option String
deriving DecidableEq, Repr

/-- The feature group built by `map_boundary`, holding the layers added to
it. -/
structure BoundaryGroup where
  name : String
  layers : List BoundaryChoropleth
deriving DecidableEq, Repr

/-- `map_boundary` (function 2): creates one feature group, attaches it to
the map (`map_obj.add_child`), and adds one choropleth layer with zero fill
opacity, the given line weight and no fill color.  The map object is
embedded as its list of attached groups; the Python function returns
`None`, so the embedding returns only the updated map. -/
def map_boundary (geo_data : List Polygon) (fg_name : String)
    (map_obj : List BoundaryGroup) (lw : ℚ) : List BoundaryGroup :=
  let choropleth : BoundaryChoropleth :=
    { geo_data := geo_data, fill_opacity := 0, line_weight := lw, fill_color := none }
  let feature_group : BoundaryGroup := { name := fg_name, layers := [choropleth] }
  map_obj ++ [feature_group]

/-- C9: for every polygon collection (any number N of polygons),
`map_boundary` attaches exactly one feature group to the map, that group
contains exactly one layer, the layer is outline-only (fill opacity zero,
no fill color, caller's line weight), and nothing is produced beyond this
side effect (the embedding's only output is the updated map). -/
theorem map_boundary_one_group_one_layer (geo_data : List Polygon)
    (fg_name : String) (map_obj : List BoundaryGroup) (lw : ℚ) :
    map_boundary geo_data fg_name map_obj lw
      = map_obj
        ++ [{ name := fg_name,
              layers := [{ geo_data := geo_data, fill_opacity := 0,
                           line_weight := lw, fill_color := none }] }]
    ∧ (map_boundary geo_data fg_name map_obj lw).length = map_obj.length + 1
    ∧ ∃ g, (map_boundary geo_data fg_name map_obj lw).getLast? = some g
        ∧ g.layers.length = 1
        ∧ g.layers.map BoundaryChoropleth.fill_opacity = [0]
        ∧ g.layers.map BoundaryChoropleth.fill_color = [none]
        ∧ g.layers.map BoundaryChoropleth.line_weight = [lw] := by
  refine ⟨rfl, by simp [map_boundary], ?_⟩
  exact ⟨{ name := fg_name,
           layers := [{ geo_data := geo_data, fill_opacity := 0,
                        line_weight := lw, fill_color := none }] },
    by simp [map_boundary], rfl, rfl, rfl, rfl⟩

/-- The styled `folium.features.GeoJson` overlay that `map_poly_label` adds
as a child of the choropleth's geojson to draw the visible outline. -/
structure StyledOverlay where
  color : String
  weight : ℚ
deriving DecidableEq, Repr

/-- The `folium.Choropleth` built by `map_poly_label` (`clust`): its own
fill and line opacities are zero, and the visible outline comes from the
styled overlay added as a child of its geojson. -/
structure LabelChoropleth where
  geo_data : List Polygon
  fill_opacity : ℚ
  line_opacity : ℚ
  fill_color : Option String
  style_children : List StyledOverlay
deriving DecidableEq, Repr

/-- The transparent `folium.GeoJson` that `map_poly_label` adds to carry
the tooltip: its style function returns transparent stroke and fill, and
its tooltip exposes the requested fields under the requested aliases. -/
structure TooltipOverlay where
  geo_data : List Polygon
  style_color : String
  style_fill_color : String
  tooltip_fields : List String
  tooltip_aliases : List String
deriving DecidableEq, Repr

/-- A direct child layer of the feature group built by `map_poly_label`. -/
inductive LabelLayer where
  | choroLayer (c : LabelChoropleth) : LabelLayer
  | tooltipLayer (t : TooltipOverlay) : LabelLayer
deriving DecidableEq, Repr

/-- The feature group built by `map_poly_label`. -/
structure LabelGroup where
  name : String
  layers : List LabelLayer
deriving DecidableEq, Repr

/-- Python truthiness of an optional list argument, as tested by
`if tooltip_fields:` style conditions: `None` and the empty list are
falsy, a non-empty list is truthy. -/
def truthy (o : Option (List String)) : Bool :=
  match o with
  | none => false
  | some fs => !fs.isEmpty

/-- `map_poly_label` (function 3): creates one feature group; adds (1) a
choropleth with transparent fill and no lines (`fill_opacity=0`,
`line_opacity=0`, `fill_color=None`) whose geojson receives a styled
child drawing the outline with the caller's line color `lc` and width
`lw`; and (2) a fully transparent geojson layer carrying the tooltip,
whose fields and aliases default to `[]` when the caller passes none
(`tooltip_fields if tooltip_fields else []`). -/
def map_poly_label (map_obj : List LabelGroup) (geo_data : List Polygon)
    (fg_name : String) (lc : String) (lw : ℚ)
    (tooltip_fields tooltip_aliases : Option (List String)) : List LabelGroup :=
  let clust : LabelChoropleth :=
    { geo_data := geo_data, fill_opacity := 0, line_opacity := 0, fill_color := none,
      style_children := [{ color := lc, weight := lw }] }
  let tip : TooltipOverlay :=
    { geo_data := geo_data, style_color := "transparent", style_fill_color := "transparent",
      tooltip_fields := if truthy tooltip_fields then tooltip_fields.getD [] else [],
      tooltip_aliases := if truthy tooltip_aliases then tooltip_aliases.getD [] else [] }
  let feature_group : LabelGroup :=
    { name := fg_name, layers := [LabelLayer.choroLayer clust, LabelLayer.tooltipLayer tip] }
  map_obj ++ [feature_group]

/-- C7: every `map_poly_label` call produces a feature group with exactly
two stacked layers: (a) a transparent-fill polygon layer whose visible
outline is styled with the caller's line color and width (via its styled
geojson child), and (b) a fully transparent polygon layer whose only role
is to carry the tooltip with the requested fields and aliases. -/
theorem map_poly_label_two_stacked_layers (map_obj : List LabelGroup)
    (geo_data : List Polygon) (fg_name lc : String) (lw : ℚ)
    (tooltip_fields tooltip_aliases : Option (List String)) :
    ∃ c t,
      map_poly_label map_obj geo_data fg_name lc lw tooltip_fields tooltip_aliases
        = map_obj
          ++ [{ name := fg_name,
                layers := [LabelLayer.choroLayer c, LabelLayer.tooltipLayer t] }]
      ∧ c.fill_opacity = 0
      ∧ c.fill_color = none
      ∧ c.style_children = [{ color := lc, weight := lw }]
      ∧ t.style_color = "transparent"
      ∧ t.style_fill_color = "transparent"
      ∧ t.tooltip_fields = (if truthy tooltip_fields then tooltip_fields.getD [] else [])
      ∧ t.tooltip_aliases = (if truthy tooltip_aliases then tooltip_aliases.getD [] else []) :=
  ⟨_, _, rfl, rfl, rfl, rfl, rfl, rfl, rfl, rfl⟩

/-- C8: calling `map_poly_label` with no tooltip fields and no aliases
still attaches the tooltip layer, constructed with empty field and alias
lists, rather than omitting it. -/
theorem map_poly_label_empty_tooltip (map_obj : List LabelGroup)
    (geo_data : List Polygon) (fg_name lc : String) (lw : ℚ) :
    ∃ g t, map_poly_label map_obj geo_data fg_name lc lw none none = map_obj ++ [g]
      ∧ LabelLayer.tooltipLayer t ∈ g.layers
      ∧ t.tooltip_fields = []
      ∧ t.tooltip_aliases = [] :=
  ⟨{ name := fg_name,
     layers := [LabelLayer.choroLayer
                  { geo_data := geo_data, fill_opacity := 0, line_opacity := 0,
                    fill_color := none, style_children := [{ color := lc, weight := lw }] },
                LabelLayer.tooltipLayer
                  { geo_data := geo_data, style_color := "transparent",
                    style_fill_color := "transparent",
                    tooltip_fields := [], tooltip_aliases := [] }] },
   { geo_data := geo_data, style_color := "transparent", style_fill_color := "transparent",
     tooltip_fields := [], tooltip_aliases := [] },
   rfl, by simp, rfl, rfl⟩

/-- The feature group built by `heatmap_from_points`, together with the
`HeatMap` layer added to it (its constructor arguments as fields). -/
structure HeatGroup where
  name : String
  show_flag : Bool
  heat_data : List (List ℚ)
  radius : ℚ
  blur : ℚ
  gradient : List (ℚ × String)
  overlay : Bool
deriving DecidableEq, Repr

/-- `heatmap_from_points` (function 6): creates a feature group with
`show=False` hard-coded (the function has no parameter controlling
visibility), attaches it to the map, extracts `[point.y, point.x]` for
every point of `geo_data.geometry` in input order as the heat data, and
adds one `HeatMap` layer with the fixed five-stop gradient.  Returns the
feature group, as the source does (`return fg`). -/
def heatmap_from_points (map_obj : List HeatGroup) (geo_data : List Pt)
    (fg_name : String) (r b : ℚ) : List HeatGroup × HeatGroup :=
  let heat_data := geo_data.map fun point => [point.y, point.x]
  let fg : HeatGroup :=
    { name := fg_name, show_flag := false, heat_data := heat_data,
      radius := r, blur := b,
      gradient := [(3/10, "white"), (6/10, "yellow"), (8/10, "orange"),
                   (9/10, "red"), (1, "magenta")],
      overlay := true }
  (map_obj ++ [fg], fg)

/-- C5: for every point collection of size N, the heat data underlying the
heat layer has exactly N entries, the i-th entry being the
`[latitude, longitude]` pair of the i-th input point (same order as the
input); an empty collection yields an empty heat data list (and the
builder, being a total function, does not fail on it). -/
theorem heatmap_from_points_data (map_obj : List HeatGroup) (geo_data : List Pt)
    (fg_name : String) (r b : ℚ) :
    ((heatmap_from_points map_obj geo_data fg_name r b).2.heat_data).length
        = geo_data.length
    ∧ (∀ i : ℕ,
        (heatmap_from_points map_obj geo_data fg_name r b).2.heat_data[i]?
          = geo_data[i]?.map fun p => [p.y, p.x])
    ∧ (heatmap_from_points map_obj [] fg_name r b).2.heat_data = [] := by
  refine ⟨by simp [heatmap_from_points], fun i => ?_, by simp [heatmap_from_points]⟩
  simp [heatmap_from_points]

/-- C10: the feature group created and attached by `heatmap_from_points`
has initial visibility `False` unconditionally: `show=False` is hard-coded
at construction, and none of the function's parameters (map, points, group
name, radius, blur — the complete parameter list of the source function)
can change it. -/
theorem heatmap_from_points_always_hidden (map_obj : List HeatGroup)
    (geo_data : List Pt) (fg_name : String) (r b : ℚ) :
    (heatmap_from_points map_obj geo_data fg_name r b).1
        = map_obj ++ [(heatmap_from_points map_obj geo_data fg_name r b).2]
    ∧ (heatmap_from_points map_obj geo_data fg_name r b).2.show_flag = false :=
  ⟨rfl, rfl⟩

/-- A child attached to the choropleth's geojson by
`map_boundary_tooltip`: a `GeoJsonTooltip` or a `GeoJsonPopup` over the
given fields. -/
inductive GJChild where
  | tooltipChild (fields : List String) : GJChild
  | popupChild (fields : List String) : GJChild
deriving DecidableEq, Repr

/-- The `folium.Choropleth` built by `map_boundary_tooltip`, with the
children attached to its geojson. -/
structure InteractChoropleth where
  geo_data : List Polygon
  fill_opacity : ℚ
  fill_color : Option String
  line_weight : ℚ
  line_color : String
  name : String
  geojson_children : List GJChild
deriving DecidableEq, Repr

/-- The feature group built by `map_boundary_tooltip`. -/
structure InteractGroup where
  name : String
  show_flag : Bool
  layers : List InteractChoropleth
deriving DecidableEq, Repr

/-- `map_boundary_tooltip` (function 7): creates a feature group with the
given visibility, adds one choropleth layer with the given styling, then
attaches a `GeoJsonTooltip` child to the choropleth's geojson only when
`if tooltip_fields:` is truthy, and a `GeoJsonPopup` child only when
`if popup_fields:` is truthy — two independent conditions. -/
def map_boundary_tooltip (map_obj : List InteractGroup) (geo_data : List Polygon)
    (fg_name : String) (show_flag : Bool)
    (tooltip_fields popup_fields : Option (List String))
    (fo : ℚ) (fc : Option String) (lw : ℚ) (lc : String) (name : String) :
    List InteractGroup :=
  let choropleth : InteractChoropleth :=
    { geo_data := geo_data, fill_opacity := fo, fill_color := fc,
      line_weight := lw, line_color := lc, name := name,
      geojson_children :=
        (if truthy tooltip_fields then [GJChild.tooltipChild (tooltip_fields.getD [])] else [])
          ++ (if truthy popup_fields then [GJChild.popupChild (popup_fields.getD [])] else []) }
  let fg : InteractGroup := { name := fg_name, show_flag := show_flag, layers := [choropleth] }
  map_obj ++ [fg]

theorem truthy_iff (o : Option (List String)) :
    truthy o = true ↔ ∃ l, o = some l ∧ l ≠ [] := by
  cases o with
  | none => simp [truthy]
  | some l => cases l <;> simp [truthy]

/-- C3: `map_boundary_tooltip` attaches a tooltip child to the choropleth
layer iff tooltip fields are given (a non-empty field list is passed —
Python truthiness of `if tooltip_fields:`), and a popup child iff popup
fields are given; the two conditions are independent, the two
biconditionals holding simultaneously for all four combinations of
arguments. -/
theorem map_boundary_tooltip_iff (map_obj : List InteractGroup)
    (geo_data : List Polygon) (fg_name : String) (show_flag : Bool)
    (tooltip_fields popup_fields : Option (List String))
    (fo : ℚ) (fc : Option String) (lw : ℚ) (lc : String) (name : String) :
    ∃ ch : InteractChoropleth,
      map_boundary_tooltip map_obj geo_data fg_name show_flag tooltip_fields popup_fields
          fo fc lw lc name
        = map_obj ++ [{ name := fg_name, show_flag := show_flag, layers := [ch] }]
      ∧ ((∃ fs, GJChild.tooltipChild fs ∈ ch.geojson_children)
          ↔ ∃ l, tooltip_fields = some l ∧ l ≠ [])
      ∧ ((∃ fs, GJChild.popupChild fs ∈ ch.geojson_children)
          ↔ ∃ l, popup_fields = some l ∧ l ≠ []) := by
  refine ⟨_, rfl, ?_, ?_⟩
  · rw [← truthy_iff]
    cases htf : truthy tooltip_fields <;> cases hpf : truthy popup_fields <;>
      simp [htf, hpf]
  · rw [← truthy_iff]
    cases htf : truthy tooltip_fields <;> cases hpf : truthy popup_fields <;>
      simp [htf, hpf]

/-- The key order used by pandas `groupby(['latitude','longitude'])`:
groups are iterated in ascending sorted order of the key, latitude first,
then longitude. -/
def locLe (a b : Pt) : Prop :=
  a.y < b.y ∨ (a.y = b.y ∧ a.x ≤ b.x)

instance : DecidableRel locLe := fun a b => by
  unfold locLe
  infer_instance

instance : IsTotal Pt locLe := ⟨by
  intro a b
  unfold locLe
  rcases lt_trichotomy a.y b.y with h | h | h
  · exact Or.inl (Or.inl h)
  · rcases le_total a.x b.x with hx | hx
    · exact Or.inl (Or.inr ⟨h, hx⟩)
    · exact Or.inr (Or.inr ⟨h.symm, hx⟩)
  · exact Or.inr (Or.inl h)⟩

instance : IsTrans Pt locLe := ⟨by
  intro a b c hab hbc
  unfold locLe at *
  rcases hab with h1 | ⟨h1, h1'⟩
  · rcases hbc with h2 | ⟨h2, _⟩
    · exact Or.inl (h1.trans h2)
    · exact Or.inl (lt_of_lt_of_le h1 (le_of_eq h2))
  · rcases hbc with h2 | ⟨h2, h2'⟩
    · exact Or.inl (lt_of_le_of_lt (le_of_eq h1) h2)
    · exact Or.inr ⟨h1.trans h2, h1'.trans h2'⟩⟩

instance : IsAntisymm Pt locLe := ⟨by
  intro a b hab hba
  rcases hab with h1 | ⟨h1, h1'⟩
  · rcases hba with h2 | ⟨h2, _⟩
    · exact ((lt_asymm h1) h2).elim
    · exact absurd h1 (by rw [h2]; exact lt_irrefl _)
  · rcases hba with h2 | ⟨h2, h2'⟩
    · exact absurd h2 (by rw [h1]; exact lt_irrefl _)
    · have hx := le_antisymm h1' h2'
      cases a; cases b
      simp only [Pt.mk.injEq]
      exact ⟨hx, h1⟩⟩

/-- Step 2 of `map_graduated_circles`:
`gdf_points.groupby(['latitude','longitude']).size().reset_index(name='count')`.
Groups points by exact coordinate equality; one row per distinct location,
in sorted key order, with the number of points at that location. -/
def groupbyCount (pts : List Pt) : List (Pt × ℕ) :=
  (List.insertionSort locLe pts.dedup).map fun p => (p, pts.count p)

/-- A `folium.Circle` as constructed by `map_graduated_circles`: its
constructor arguments as fields. -/
structure Circle where
  location : Pt
  radius : ℚ
  color : String
  fill : Bool
  fill_color : String
  opacity : ℚ
  stroke : Bool
  weight : ℚ
deriving DecidableEq, Repr

/-- Step 4 of `map_graduated_circles`: for each grouped row, one circle at
`[row['latitude'], row['longitude']]` with
`radius = count * radius_scale` and the given style parameters. -/
def gradCircles (pts : List Pt) (radius_scale : ℚ) (color : String) (fill : Bool)
    (fill_color : String) (opacity : ℚ) (stroke : Bool) (weight : ℚ) : List Circle :=
  (groupbyCount pts).map fun row =>
    { location := row.1, radius := (row.2 : ℚ) * radius_scale,
      color := color, fill := fill, fill_color := fill_color,
      opacity := opacity, stroke := stroke, weight := weight }

/-- One record of a point geodataframe: a point geometry plus named
attribute columns. -/
structure PointRow where
  geometry : Pt
  attrs : List (String × ℚ)
deriving DecidableEq, Repr

/-- A point geodataframe: its column names and its records. -/
structure PointFrame where
  columns : List String
  rows : List PointRow
deriving DecidableEq, Repr

/-- `DataFrame.copy()`: an independent copy with the same columns and
records; mutating the copy leaves the original untouched, which in the
pure embedding makes `copy` the identity on the frame's value. -/
def PointFrame.copy (f : PointFrame) : PointFrame :=
  f

/-- `gdf['name'] = gdf.geometry.<expr>`: appends a derived column,
computing its value per record. -/
def PointFrame.addColumn (f : PointFrame) (c : String) (v : PointRow → ℚ) : PointFrame :=
  { columns := f.columns ++ [c],
    rows := f.rows.map fun r => { r with attrs := r.attrs ++ [(c, v r)] } }

/-- Step 1 of `map_graduated_circles`: the private working frame.  The
assignment `gdf_points = gdf_points.copy()` rebinds the local name to a
copy, so the two derived columns `latitude` (`geometry.y`) and `longitude`
(`geometry.x`) are added to the copy only. -/
def grad_working_frame (gdf_points : PointFrame) : PointFrame :=
  ((gdf_points.copy.addColumn "latitude" fun r => r.geometry.y).addColumn
    "longitude" fun r => r.geometry.x)

/-- The feature group built by `map_graduated_circles`. -/
structure GradGroup where
  name : String
  show_flag : Bool
  circles : List Circle
deriving DecidableEq, Repr

/-- `map_graduated_circles` (function 8): copies the frame, adds the two
derived coordinate columns to the copy, groups by exact coordinates,
creates a feature group, attaches it to the map, and adds one circle per
grouped row.  The result is the updated map child list paired with the
caller's frame as it stands after the call. -/
def map_graduated_circles (map_obj : List GradGroup) (gdf_points : PointFrame)
    (radius_scale : ℚ) (color : String) (show_flag : Bool) (fill : Bool)
    (fill_color : String) (opacity : ℚ) (stroke : Bool) (weight : ℚ)
    (fg_name : String) : List GradGroup × PointFrame :=
  let working := grad_working_frame gdf_points
  let pts := working.rows.map PointRow.geometry
  let fg : GradGroup :=
    { name := fg_name, show_flag := show_flag,
      circles := gradCircles pts radius_scale color fill fill_color opacity stroke weight }
  (map_obj ++ [fg], gdf_points)

theorem grad_working_rows (f : PointFrame) :
    (grad_working_frame f).rows.map PointRow.geometry = f.rows.map PointRow.geometry := by
  simp [grad_working_frame, PointFrame.copy, PointFrame.addColumn, List.map_map,
    Function.comp]

theorem insertionSort_dedup_eq {pts pts' : List Pt} (h : pts.Perm pts') :
    List.insertionSort locLe pts.dedup = List.insertionSort locLe pts'.dedup :=
  List.eq_of_perm_of_sorted
    ((List.perm_insertionSort locLe pts.dedup).trans
      (h.dedup.trans (List.perm_insertionSort locLe pts'.dedup).symm))
    (List.sorted_insertionSort locLe pts.dedup)
    (List.sorted_insertionSort locLe pts'.dedup)

theorem groupbyCount_perm {pts pts' : List Pt} (h : pts.Perm pts') :
    groupbyCount pts = groupbyCount pts' := by
  unfold groupbyCount
  rw [insertionSort_dedup_eq h]
  have hc : (fun p : Pt => (p, pts.count p)) = fun p : Pt => (p, pts'.count p) :=
    funext fun p => by rw [h.count_eq]
  rw [hc]

theorem gradCircles_map_location (pts : List Pt) (radius_scale : ℚ) (color : String)
    (fill : Bool) (fill_color : String) (opacity : ℚ) (stroke : Bool) (weight : ℚ) :
    (gradCircles pts radius_scale color fill fill_color opacity stroke weight).map
        Circle.location
      = List.insertionSort locLe pts.dedup := by
  simp only [gradCircles, groupbyCount, List.map_map]
  exact List.map_id'' (fun p => rfl) _

theorem mem_gradCircles {pts : List Pt} {radius_scale : ℚ} {color : String}
    {fill : Bool} {fill_color : String} {opacity : ℚ} {stroke : Bool} {weight : ℚ}
    {cir : Circle}
    (hc : cir ∈ gradCircles pts radius_scale color fill fill_color opacity stroke weight) :
    cir.location ∈ pts ∧ cir.radius = (pts.count cir.location : ℚ) * radius_scale := by
  simp only [gradCircles, groupbyCount, List.map_map, List.mem_map,
    Function.comp] at hc
  obtain ⟨p, hp, rfl⟩ := hc
  exact ⟨List.mem_dedup.1 ((List.perm_insertionSort locLe pts.dedup).subset hp), rfl⟩

/-- C1: `map_graduated_circles` adds one group whose circles come from
grouping points by exact (latitude, longitude) equality: the circle
locations are exactly the distinct input locations (one circle each, no
duplicates), every circle's radius is (count at its location) ×
radius_scale with no cap and no floor, the output is order-independent
(equal for any permutation of the input points), and for three points at
(1,1), (1,1), (2,2) there are exactly two circles, at (1,1) with radius
2 × scale and at (2,2) with radius 1 × scale. -/
theorem map_graduated_circles_grouping (map_obj : List GradGroup)
    (gdf_points : PointFrame) (pts pts' : List Pt) (radius_scale : ℚ)
    (color : String) (show_flag fill : Bool) (fill_color : String)
    (opacity : ℚ) (stroke : Bool) (weight : ℚ) (fg_name : String)
    (h : pts.Perm pts') :
    (map_graduated_circles map_obj gdf_points radius_scale color show_flag fill
        fill_color opacity stroke weight fg_name).1
      = map_obj
        ++ [{ name := fg_name, show_flag := show_flag,
              circles := gradCircles (gdf_points.rows.map PointRow.geometry)
                radius_scale color fill fill_color opacity stroke weight }]
    ∧ ((gradCircles pts radius_scale color fill fill_color opacity stroke weight).map
        Circle.location).Perm pts.dedup
    ∧ ((gradCircles pts radius_scale color fill fill_color opacity stroke weight).map
        Circle.location).Nodup
    ∧ (∀ c ∈ gradCircles pts radius_scale color fill fill_color opacity stroke weight,
        c.radius = (pts.count c.location : ℚ) * radius_scale)
    ∧ gradCircles pts radius_scale color fill fill_color opacity stroke weight
        = gradCircles pts' radius_scale color fill fill_color opacity stroke weight
    ∧ (gradCircles [⟨1, 1⟩, ⟨1, 1⟩, ⟨2, 2⟩] radius_scale color fill fill_color opacity
          stroke weight).map (fun c => (c.location, c.radius))
        = [(⟨1, 1⟩, 2 * radius_scale), (⟨2, 2⟩, 1 * radius_scale)] := by
  have hloc := gradCircles_map_location pts radius_scale color fill fill_color
    opacity stroke weight
  refine ⟨?_, ?_, ?_, ?_, ?_, ?_⟩
  · simp [map_graduated_circles, grad_working_rows]
  · rw [hloc]
    exact (List.perm_insertionSort locLe pts.dedup)
  · rw [hloc]
    exact ((List.perm_insertionSort locLe pts.dedup).nodup_iff).2 (List.nodup_dedup pts)
  · exact fun c hc => (mem_gradCircles hc).2
  · unfold gradCircles
    rw [groupbyCount_perm h]
  · have hg : groupbyCount [⟨1, 1⟩, ⟨1, 1⟩, ⟨2, 2⟩] = [(⟨1, 1⟩, 2), (⟨2, 2⟩, 1)] := by
      decide
    simp [gradCircles, hg]

/-- Witness for C1: the theorem applied to the concrete input
[(1,1), (1,1), (2,2)] and its reversal, whose permutation hypothesis is
discharged by evaluation; the projected conjunct shows the output is the
same for both orders. -/
theorem map_graduated_circles_grouping_witness :
    ([⟨1, 1⟩, ⟨1, 1⟩, ⟨2, 2⟩] : List Pt).Perm [⟨2, 2⟩, ⟨1, 1⟩, ⟨1, 1⟩]
    ∧ gradCircles [⟨1, 1⟩, ⟨1, 1⟩, ⟨2, 2⟩] 5 "#17cbef" true "#17cbef" (6/10) true 1
        = gradCircles [⟨2, 2⟩, ⟨1, 1⟩, ⟨1, 1⟩] 5 "#17cbef" true "#17cbef" (6/10) true 1 :=
  ⟨by decide,
    (map_graduated_circles_grouping [] ⟨[], []⟩ [⟨1, 1⟩, ⟨1, 1⟩, ⟨2, 2⟩]
      [⟨2, 2⟩, ⟨1, 1⟩, ⟨1, 1⟩] 5 "#17cbef" false true "#17cbef" (6/10) true 1
      "Graduated_Circles" (by decide)).2.2.2.2.1⟩

/-- C4: `map_graduated_circles` never mutates the caller's geodataframe:
after any call the caller's frame is unchanged (same records, same
columns, same geometries), and the two derived columns `latitude` and
`longitude` are added only to the private working copy, whose records keep
the original geometries. -/
theorem map_graduated_circles_no_mutation (map_obj : List GradGroup)
    (gdf_points : PointFrame) (radius_scale : ℚ) (color : String)
    (show_flag fill : Bool) (fill_color : String) (opacity : ℚ) (stroke : Bool)
    (weight : ℚ) (fg_name : String) :
    (map_graduated_circles map_obj gdf_points radius_scale color show_flag fill
        fill_color opacity stroke weight fg_name).2 = gdf_points
    ∧ (grad_working_frame gdf_points).columns
        = gdf_points.columns ++ ["latitude", "longitude"]
    ∧ (grad_working_frame gdf_points).rows.map PointRow.geometry
        = gdf_points.rows.map PointRow.geometry :=
  ⟨rfl, by simp [grad_working_frame, PointFrame.copy, PointFrame.addColumn],
    grad_working_rows gdf_points⟩

/-- Counterexample for C6 as stated: the claim "every circle added has
radius ≥ radius_scale" fails for a negative scale.  With two points at
(1,1) and radius_scale = -1, the single circle has radius 2 × (-1) = -2,
which is strictly below the scale -1. -/
theorem map_graduated_circles_radius_floor_counterexample :
    ¬ ∀ c ∈ gradCircles [⟨1, 1⟩, ⟨1, 1⟩] (-1) "#17cbef" true "#17cbef" (6/10) true 1,
        (-1 : ℚ) ≤ c.radius := by
  have hg : groupbyCount [⟨1, 1⟩, ⟨1, 1⟩] = [(⟨1, 1⟩, 2)] := by decide
  intro hall
  have h2 := hall
    { location := ⟨1, 1⟩, radius := ((2 : ℕ) : ℚ) * (-1), color := "#17cbef",
      fill := true, fill_color := "#17cbef", opacity := 6/10, stroke := true,
      weight := 1 }
    (by simp [gradCircles, hg])
  norm_num at h2

/-- C6 (amended): `map_graduated_circles` on an empty point collection
still creates and attaches its feature group, with zero circles, and does
not fail (the embedding is a total function); a group with count = 0 never
occurs (every distinct location has count ≥ 1, unconditionally); whenever
radius_scale ≥ 0, every circle has radius ≥ radius_scale (for a negative
scale the linear radius count × radius_scale can drop below the scale);
and a location appearing exactly once yields radius = radius_scale for any
scale, nonnegative or not. -/
theorem map_graduated_circles_empty_and_radius (map_obj : List GradGroup)
    (gdf_points : PointFrame) (hf : gdf_points.rows = []) (pts : List Pt)
    (radius_scale : ℚ) (color : String)
    (show_flag fill : Bool) (fill_color : String) (opacity : ℚ) (stroke : Bool)
    (weight : ℚ) (fg_name : String) :
    (map_graduated_circles map_obj gdf_points radius_scale color show_flag fill
        fill_color opacity stroke weight fg_name).1
      = map_obj ++ [{ name := fg_name, show_flag := show_flag, circles := [] }]
    ∧ (∀ p ∈ pts.dedup, 1 ≤ pts.count p)
    ∧ (0 ≤ radius_scale →
        ∀ c ∈ gradCircles pts radius_scale color fill fill_color opacity stroke weight,
          radius_scale ≤ c.radius)
    ∧ (∀ c ∈ gradCircles pts radius_scale color fill fill_color opacity stroke weight,
        pts.count c.location = 1 → c.radius = radius_scale) := by
  refine ⟨?_, ?_, ?_, ?_⟩
  · simp [map_graduated_circles, grad_working_frame, PointFrame.copy,
      PointFrame.addColumn, hf, gradCircles, groupbyCount]
  · exact fun p hp => List.count_pos_iff.2 (List.mem_dedup.1 hp)
  · intro hs c hc
    obtain ⟨hmem, hrad⟩ := mem_gradCircles hc
    rw [hrad]
    have h1 : (1 : ℚ) ≤ (pts.count c.location : ℚ) := by
      exact_mod_cast List.count_pos_iff.2 hmem
    calc radius_scale = 1 * radius_scale := (one_mul _).symm
      _ ≤ (pts.count c.location : ℚ) * radius_scale :=
          mul_le_mul_of_nonneg_right h1 hs
  · intro c hc h1
    rw [(mem_gradCircles hc).2, h1]
    simp

/-- Witness for C6 (amended): the theorem applied with an empty frame at
the negative scale -1; the empty-rows hypothesis is discharged by
evaluation, and the projected conjunct shows the attached group holds
zero circles — the unconditional parts of the amended claim apply even
at a negative scale. -/
theorem map_graduated_circles_empty_and_radius_witness :
    (⟨["month"], []⟩ : PointFrame).rows = []
    ∧ (map_graduated_circles [] ⟨["month"], []⟩ (-1) "#17cbef" false true "#17cbef"
          (6/10) true 1 "Graduated_Circles").1
        = [] ++ [{ name := "Graduated_Circles", show_flag := false, circles := [] }] :=
  ⟨rfl,
    (map_graduated_circles_empty_and_radius [] ⟨["month"], []⟩ rfl [⟨1, 1⟩] (-1)
      "#17cbef" false true "#17cbef" (6/10) true 1 "Graduated_Circles").1⟩

end QuickFolium
